import Mathlib

/-!
Verification of the CPSC2020 ectopic-beat matching and scoring algorithm
(`compute_metrics` in `torch_ecg/databases/cpsc_databases/cpsc2020.py`).

The function scores predicted SPB/PVC beat indices against reference
annotations, per recording, with a tolerance window, and aggregates scores
across recordings.  We embed the algorithm shallowly: index sequences are
`List ℤ`, counters are `ℤ` (Python integers), the per-recording loop is a
fold, and the verbose-mode reference to loop-local variables is modelled
with `Option` (so that the `NameError` raised on an empty corpus becomes an
`Except.error`).
-/

namespace CPSC2020

/-- Sampling frequency: the code hardcodes `BaseCfg.fs = 400` inside
`compute_metrics`; it is not a parameter of the function. -/
def fs : ℤ := 400

/-- Bias threshold: the code computes `bias_thr = 0.15 * fs` with `fs = 400`.
In IEEE-754 double arithmetic `0.15 * 400` rounds to exactly `60.0`, and the
comparison `abs(p - r) <= 60.0` on integers is `|p - r| ≤ 60`. -/
def bias_thr : ℤ := 60

/-- The candidate count `len(np.where(abs(P - r) <= bias_thr)[0])`:
number of predictions within the tolerance window of reference index `r`. -/
def pos_cand (P : List ℤ) (r : ℤ) : ℕ :=
  (P.filter (fun p => |p - r| ≤ bias_thr)).length

/-- One iteration of the reference loop, acting on the `(tp, fp, fn)`
accumulator: `if cand == 0: fn += 1 else: tp += 1; fp += cand - 1`. -/
def refStep (P : List ℤ) (acc : ℤ × ℤ × ℤ) (r : ℤ) : ℤ × ℤ × ℤ :=
  if pos_cand P r = 0 then (acc.1, acc.2.1, acc.2.2 + 1)
  else (acc.1 + 1, acc.2.1 + ((pos_cand P r : ℤ) - 1), acc.2.2)

/-- The per-type matcher of `compute_metrics`: given one beat type's
reference sequence `R` and prediction sequence `P` for one recording,
produce `(tp, fp, fn)`.  Mirrors
`if ref.size == 0: fp = len(pos) else: for ans in ref: ...`. -/
def matchType (R P : List ℤ) : ℤ × ℤ × ℤ :=
  if R.length = 0 then (0, (P.length : ℤ), 0)
  else R.foldl (refStep P) (0, 0, 0)

/-- The per-recording per-type score `fp * (-1) + fn * (-5)` assigned to
`s_score[i]` / `v_score[i]`. -/
def beat_score (c : ℤ × ℤ × ℤ) : ℤ := c.2.1 * (-1) + c.2.2 * (-5)

/-- One recording's inputs as produced by
`zip(sbp_true, pvc_true, sbp_pred, pvc_pred)`: `(s_ref, v_ref, s_pos, v_pos)`. -/
abbrev Rec4 := List ℤ × List ℤ × List ℤ × List ℤ

/-- Python's 4-way `zip`: truncates to the shortest of the four lists. -/
def zip4 : List (List ℤ) → List (List ℤ) → List (List ℤ) → List (List ℤ) → List Rec4
  | x :: a, y :: b, z :: c, w :: d => (x, y, z, w) :: zip4 a b c d
  | _, _, _, _ => []

/-- The SPB counts `(s_tp, s_fp, s_fn)` computed for one recording:
the matcher applied to `(s_ref, s_pos)`. -/
def sCounts (rec : Rec4) : ℤ × ℤ × ℤ := matchType rec.1 rec.2.2.1

/-- The PVC counts `(v_tp, v_fp, v_fn)` computed for one recording:
the matcher applied to `(v_ref, v_pos)`. -/
def vCounts (rec : Rec4) : ℤ × ℤ × ℤ := matchType rec.2.1 rec.2.2.2

/-- The per-recording loop of `compute_metrics`.  The accumulator carries
the running sums of the `s_score` and `v_score` entries, plus the value that
the loop-local variables `(s_tp, s_fp, s_fn)` and `(v_tp, v_fp, v_fn)` hold
after the loop: `none` when the loop body never executed (those Python
variables are then unbound), `some` of the last iteration's counts otherwise. -/
def recordLoop (recs : List Rec4) : ℤ × ℤ × Option ((ℤ × ℤ × ℤ) × (ℤ × ℤ × ℤ)) :=
  recs.foldl
    (fun acc rec =>
      (acc.1 + beat_score (sCounts rec),
       acc.2.1 + beat_score (vCounts rec),
       some (sCounts rec, vCounts rec)))
    (0, 0, none)

/-- Sum of the SPB scores `s_score[i]` over the processed recordings
(`Score1 = np.sum(s_score)`; untouched entries of `s_score` are zero). -/
def scoreSum1 (recs : List Rec4) : ℤ :=
  (recs.map (fun rec => beat_score (sCounts rec))).sum

/-- Sum of the PVC scores `v_score[i]` over the processed recordings
(`Score2 = np.sum(v_score)`). -/
def scoreSum2 (recs : List Rec4) : ℤ :=
  (recs.map (fun rec => beat_score (vCounts rec))).sum

/-- Return value of `compute_metrics`: either the compact tuple
`(Score1, Score2)` (when `verbose = 0`) or the detailed `CFG` record with
`total_loss`, `class_loss` (keys `S`, `V`), `true_positive`,
`false_positive`, `false_negative` (keys `S`, `V`). -/
inductive MetricsResult : Type
  | compact (score1 score2 : ℤ)
  | detailed (total_loss class_loss_S class_loss_V tp_S tp_V fp_S fp_V fn_S fn_V : ℤ)
deriving DecidableEq, Repr

/-- The whole `compute_metrics` function.  The four input lists are zipped
(truncating to the shortest), each recording is matched per type and scored,
the scores are summed into `Score1`, `Score2`, and the result shape is chosen
by `verbose`.  When `verbose ≥ 1` and the loop never ran, the Python code
raises `NameError` (the loop-local count variables are unbound when building
the detailed result); this is modelled as `Except.error`. -/
def compute_metrics (sbp_true pvc_true sbp_pred pvc_pred : List (List ℤ))
    (verbose : ℕ) : Except String MetricsResult :=
  let res := recordLoop (zip4 sbp_true pvc_true sbp_pred pvc_pred)
  if 1 ≤ verbose then
    match res.2.2 with
    | none => .error "NameError"
    | some (sc, vc) =>
        .ok (.detailed (-(res.1 + res.2.1)) (-res.1) (-res.2.1)
          sc.1 vc.1 sc.2.1 vc.2.1 sc.2.2 vc.2.2)
  else
    .ok (.compact res.1 res.2.1)

/-! ## Spec-side definitions

These follow the specification's words, for comparison with the embedded
source algorithm. -/

/-- Specified total true positives: the number of reference indices whose
tolerance-window candidate set is non-empty ("increment `tp` by 1"). -/
def tp_accum (P R : List ℤ) : ℤ :=
  (R.countP (fun r => !(pos_cand P r = 0 : Bool)) : ℤ)

/-- Specified total false positives: the sum over matched reference indices
of `(size of candidate set - 1)`, accumulated and never reset. -/
def fp_accum (P R : List ℤ) : ℤ :=
  (R.map (fun r => if pos_cand P r = 0 then 0 else (pos_cand P r : ℤ) - 1)).sum

/-- Specified total false negatives: the number of reference indices whose
tolerance-window candidate set is empty ("increment `fn` by 1"). -/
def fn_accum (P R : List ℤ) : ℤ :=
  (R.countP (fun r => (pos_cand P r = 0 : Bool)) : ℤ)

/-- Modelled from the spec: the matcher as the specification describes it,
with the tolerance window derived from a caller-supplied sampling rate
`fsv` as `bias_thr = 0.15 * fsv` (the source instead hardcodes `fs = 400`
and takes no sampling-rate argument). -/
def matchType_fs (fsv : ℚ) (R P : List ℤ) : ℤ × ℤ × ℤ :=
  if R.length = 0 then (0, (P.length : ℤ), 0)
  else R.foldl
    (fun (acc : ℤ × ℤ × ℤ) (r : ℤ) =>
      let cand := (P.filter (fun (p : ℤ) =>
        |(p : ℚ) - (r : ℚ)| ≤ 15 / 100 * fsv)).length
      if cand = 0 then (acc.1, acc.2.1, acc.2.2 + 1)
      else (acc.1 + 1, acc.2.1 + ((cand : ℤ) - 1), acc.2.2))
    (0, 0, 0)

/-! ## Helper lemmas -/

lemma foldl_refStep (P R : List ℤ) (a b c : ℤ) :
    R.foldl (refStep P) (a, b, c) =
      (a + tp_accum P R, b + fp_accum P R, c + fn_accum P R) := by
  induction R generalizing a b c with
  | nil => simp [tp_accum, fp_accum, fn_accum]
  | cons r R ih =>
    rw [List.foldl_cons, refStep]
    by_cases h : pos_cand P r = 0
    · rw [if_pos h, ih]
      simp only [tp_accum, fp_accum, fn_accum, List.countP_cons, List.map_cons,
        List.sum_cons, h]
      refine Prod.ext ?_ (Prod.ext ?_ ?_) <;> simp [h] <;> push_cast <;> ring
    · rw [if_neg h, ih]
      simp only [tp_accum, fp_accum, fn_accum, List.countP_cons, List.map_cons,
        List.sum_cons, h]
      refine Prod.ext ?_ (Prod.ext ?_ ?_) <;> simp [h] <;> push_cast <;> ring

lemma matchType_ne (R P : List ℤ) (h : R ≠ []) :
    matchType R P = (tp_accum P R, fp_accum P R, fn_accum P R) := by
  have hlen : R.length ≠ 0 := by simpa using h
  rw [matchType, if_neg hlen, foldl_refStep]
  simp

lemma fp_accum_nonneg (P R : List ℤ) : 0 ≤ fp_accum P R := by
  refine List.sum_nonneg ?_
  intro x hx
  simp only [List.mem_map] at hx
  obtain ⟨r, -, rfl⟩ := hx
  by_cases h : pos_cand P r = 0
  · simp [h]
  · have : 1 ≤ pos_cand P r := Nat.one_le_iff_ne_zero.mpr h
    simp only [if_neg h]
    omega

lemma tp_add_fn (P R : List ℤ) : tp_accum P R + fn_accum P R = (R.length : ℤ) := by
  rw [tp_accum, fn_accum]
  have := List.length_eq_countP_add_countP (fun r => (pos_cand P r = 0 : Bool)) R
  have hcong : R.countP (fun r => decide ¬((pos_cand P r = 0 : Bool)) = true)
      = R.countP (fun r => !(pos_cand P r = 0 : Bool)) := by
    apply List.countP_congr
    intro r _
    by_cases h : pos_cand P r = 0 <;> simp [h]
  omega

lemma zip4_nil (b c d : List (List ℤ)) : zip4 [] b c d = [] := rfl

lemma zip4_nil_b (x : List ℤ) (a c d : List (List ℤ)) : zip4 (x :: a) [] c d = [] := rfl

lemma zip4_nil_c (x y : List ℤ) (a b d : List (List ℤ)) :
    zip4 (x :: a) (y :: b) [] d = [] := rfl

lemma zip4_nil_d (x y z : List ℤ) (a b c : List (List ℤ)) :
    zip4 (x :: a) (y :: b) (z :: c) [] = [] := rfl

lemma zip4_cons (x y z w : List ℤ) (a b c d : List (List ℤ)) :
    zip4 (x :: a) (y :: b) (z :: c) (w :: d) = (x, y, z, w) :: zip4 a b c d := rfl

lemma zip4_length (a : List (List ℤ)) :
    ∀ b c d : List (List ℤ),
      (zip4 a b c d).length = min (min a.length b.length) (min c.length d.length) := by
  induction a with
  | nil => intro b c d; simp [zip4_nil]
  | cons x a ih =>
    intro b c d
    cases b with
    | nil => simp [zip4_nil_b]
    | cons y b =>
      cases c with
      | nil => simp [zip4_nil_c]
      | cons z c =>
        cases d with
        | nil => simp [zip4_nil_d]
        | cons w d =>
          rw [zip4_cons]
          simp only [List.length_cons, ih]
          omega

lemma recordLoop_foldl (recs : List Rec4) (s v : ℤ)
    (o : Option ((ℤ × ℤ × ℤ) × (ℤ × ℤ × ℤ))) :
    recs.foldl
      (fun acc rec =>
        (acc.1 + beat_score (sCounts rec),
         acc.2.1 + beat_score (vCounts rec),
         some (sCounts rec, vCounts rec)))
      (s, v, o) =
    (s + scoreSum1 recs, v + scoreSum2 recs,
      match recs with
      | [] => o
      | _ :: _ => some (sCounts (recs.getLastD ([], [], [], [])),
          vCounts (recs.getLastD ([], [], [], [])))) := by
  induction recs generalizing s v o with
  | nil => simp [scoreSum1, scoreSum2]
  | cons rec recs ih =>
    rw [List.foldl_cons, ih]
    cases recs with
    | nil => simp [scoreSum1, scoreSum2]
    | cons rec2 recs2 =>
      simp only [scoreSum1, scoreSum2, List.map_cons, List.sum_cons, List.getLastD_cons]
      refine Prod.ext ?_ (Prod.ext ?_ ?_) <;> simp <;> ring

lemma recordLoop_eq (recs : List Rec4) :
    recordLoop recs =
    (scoreSum1 recs, scoreSum2 recs,
      match recs with
      | [] => none
      | _ :: _ => some (sCounts (recs.getLastD ([], [], [], [])),
          vCounts (recs.getLastD ([], [], [], [])))) := by
  rw [recordLoop, recordLoop_foldl]
  simp

lemma matchType_congr_ne (R P Q : List ℤ) (hR : R ≠ [])
    (h : ∀ r ∈ R, pos_cand P r = pos_cand Q r) : matchType R P = matchType R Q := by
  rw [matchType_ne R P hR, matchType_ne R Q hR]
  have htp : tp_accum P R = tp_accum Q R := by
    rw [tp_accum, tp_accum]
    congr 1
    apply List.countP_congr
    intro r hr
    rw [h r hr]
  have hfp : fp_accum P R = fp_accum Q R := by
    rw [fp_accum, fp_accum]
    congr 1
    apply List.map_congr_left
    intro r hr
    rw [h r hr]
  have hfn : fn_accum P R = fn_accum Q R := by
    rw [fn_accum, fn_accum]
    congr 1
    apply List.countP_congr
    intro r hr
    rw [h r hr]
  rw [htp, hfp, hfn]

lemma rat_window_iff (p r : ℤ) :
    (|(p : ℚ) - (r : ℚ)| ≤ 15 / 100 * (400 : ℚ)) ↔ |p - r| ≤ bias_thr := by
  have h60 : (15 / 100 * (400 : ℚ)) = ((60 : ℤ) : ℚ) := by norm_num
  rw [h60, bias_thr, ← Int.cast_sub, ← Int.cast_abs, Int.cast_le]

lemma matchType_fs_400 (R P : List ℤ) : matchType_fs 400 R P = matchType R P := by
  rw [matchType_fs, matchType]
  by_cases h : R.length = 0
  · rw [if_pos h, if_pos h]
  · rw [if_neg h, if_neg h]
    apply List.foldl_ext
    intro acc r _
    have hfilter : P.filter (fun (p : ℤ) => |(p : ℚ) - (r : ℚ)| ≤ 15 / 100 * (400 : ℚ))
        = P.filter (fun (p : ℤ) => |p - r| ≤ bias_thr) := by
      apply List.filter_congr
      intro p _
      simp [rat_window_iff]
    simp only [hfilter, refStep, pos_cand]

lemma zip4_map_sCounts (a : List (List ℤ)) :
    ∀ b c d : List (List ℤ), b.length = a.length → c.length = a.length →
      d.length = a.length →
      (zip4 a b c d).map sCounts = (a.zip c).map (fun pr => matchType pr.1 pr.2) := by
  induction a with
  | nil =>
    intro b c d hb hc hd
    simp [zip4_nil]
  | cons x a ih =>
    intro b c d hb hc hd
    cases b with
    | nil => simp at hb
    | cons y b =>
      cases c with
      | nil => simp at hc
      | cons z c =>
        cases d with
        | nil => simp at hd
        | cons w d =>
          simp only [List.length_cons] at hb hc hd
          rw [zip4_cons, List.zip_cons_cons, List.map_cons, List.map_cons,
            ih b c d (by omega) (by omega) (by omega)]
          rfl

lemma zip4_map_vCounts (b : List (List ℤ)) :
    ∀ a c d : List (List ℤ), a.length = b.length → c.length = b.length →
      d.length = b.length →
      (zip4 a b c d).map vCounts = (b.zip d).map (fun pr => matchType pr.1 pr.2) := by
  induction b with
  | nil =>
    intro a c d ha hc hd
    cases a with
    | nil => simp [zip4_nil]
    | cons x a => simp at ha
  | cons y b ih =>
    intro a c d ha hc hd
    cases a with
    | nil => simp at ha
    | cons x a =>
      cases c with
      | nil => simp at hc
      | cons z c =>
        cases d with
        | nil => simp at hd
        | cons w d =>
          simp only [List.length_cons] at ha hc hd
          rw [zip4_cons, List.zip_cons_cons, List.map_cons, List.map_cons,
            ih a c d (by omega) (by omega) (by omega)]
          rfl

lemma scoreSum1_eq_map (recs : List Rec4) :
    scoreSum1 recs = ((recs.map sCounts).map beat_score).sum := by
  rw [scoreSum1, List.map_map]
  rfl

lemma scoreSum2_eq_map (recs : List Rec4) :
    scoreSum2 recs = ((recs.map vCounts).map beat_score).sum := by
  rw [scoreSum2, List.map_map]
  rfl

/-! ## Claim theorems -/

/-- C1: for a non-empty reference sequence `R`, the per-type matcher
processes each reference index in order, incrementing `fn` when no
prediction lies within `bias_thr` of it, and otherwise incrementing `tp` by
one and `fp` by (candidate-set size − 1), with `fp` accumulating and never
reset; the result is exactly this accumulation: `tp` counts the references
with a non-empty candidate set, `fp` sums the per-reference excesses, `fn`
counts the references with an empty candidate set, and appending one more
reference index extends the accumulation by exactly one such step. -/
theorem matcher_accumulation (R P : List ℤ) (h : R ≠ []) :
    matchType R P = (tp_accum P R, fp_accum P R, fn_accum P R) ∧
    ∀ r : ℤ, matchType (R ++ [r]) P =
      (if pos_cand P r = 0 then
        ((matchType R P).1, (matchType R P).2.1, (matchType R P).2.2 + 1)
      else
        ((matchType R P).1 + 1,
          (matchType R P).2.1 + ((pos_cand P r : ℤ) - 1),
          (matchType R P).2.2)) := by
  refine ⟨matchType_ne R P h, ?_⟩
  intro r
  have hlen : R.length ≠ 0 := by simpa using h
  have hlen2 : (R ++ [r]).length ≠ 0 := by simp
  rw [matchType, if_neg hlen2, matchType, if_neg hlen, List.foldl_append]
  rfl

/-- Witness for C1 at `R = [1000]`, `P = [990, 1005, 1050]`:
all three predictions fall in the window, so `(tp, fp, fn) = (1, 2, 0)`. -/
theorem matcher_accumulation_witness :
    matchType [1000] [990, 1005, 1050] =
      (tp_accum [990, 1005, 1050] [1000], fp_accum [990, 1005, 1050] [1000],
        fn_accum [990, 1005, 1050] [1000]) ∧
    matchType [1000] [990, 1005, 1050] = (1, 2, 0) :=
  ⟨(matcher_accumulation [1000] [990, 1005, 1050] (by decide)).1, by decide⟩

/-- C2: with an empty reference sequence, every prediction is a false
positive: `(tp, fp, fn) = (0, |P|, 0)` and the per-recording per-type score
is `-|P|`; in particular `P = [5, 10, 15]` gives `(0, 3, 0)` and score `-3`. -/
theorem empty_reference_counts (P : List ℤ) :
    matchType [] P = (0, (P.length : ℤ), 0) ∧
    beat_score (matchType [] P) = -(P.length : ℤ) ∧
    matchType [] [5, 10, 15] = (0, 3, 0) ∧
    beat_score (matchType [] [5, 10, 15]) = -3 := by
  refine ⟨rfl, ?_, by decide, by decide⟩
  show beat_score (0, (P.length : ℤ), 0) = -(P.length : ℤ)
  rw [beat_score]
  ring

/-- C3: a prediction farther than `bias_thr` from every reference index of a
non-empty `R` contributes nothing: deleting it from the prediction sequence
leaves the matcher's `(tp, fp, fn)` unchanged, so it is never counted as a
false positive; in particular `R = [1000]`, `P = [1100]` (distance 100 > 60)
gives `(0, 0, 1)`. -/
theorem far_prediction_inert (R P1 P2 : List ℤ) (p : ℤ) (hR : R ≠ [])
    (hfar : ∀ r ∈ R, bias_thr < |p - r|) :
    matchType R (P1 ++ p :: P2) = matchType R (P1 ++ P2) ∧
    matchType [1000] [1100] = (0, 0, 1) := by
  refine ⟨?_, by decide⟩
  apply matchType_congr_ne R _ _ hR
  intro r hr
  have hout : ¬(|p - r| ≤ bias_thr) := not_le.mpr (hfar r hr)
  rw [pos_cand, pos_cand, List.filter_append, List.filter_append, List.filter_cons]
  simp [hout]

/-- Witness for C3 at `R = [1000]`, removing the far prediction `p = 1100`. -/
theorem far_prediction_inert_witness :
    matchType [1000] ([] ++ 1100 :: []) = matchType [1000] ([] ++ []) ∧
    matchType [1000] [1100] = (0, 0, 1) :=
  far_prediction_inert [1000] [] [] 1100 (by decide) (by decide)

/-- C4: for every reference and prediction sequence the matcher's outputs
satisfy `tp ≥ 0`, `fp ≥ 0`, `fn ≥ 0` and `tp + fn = |R|`: each reference
index is classified exactly once as matched or missed. -/
theorem counts_nonneg_partition (R P : List ℤ) :
    0 ≤ (matchType R P).1 ∧ 0 ≤ (matchType R P).2.1 ∧ 0 ≤ (matchType R P).2.2 ∧
    (matchType R P).1 + (matchType R P).2.2 = (R.length : ℤ) := by
  by_cases h : R = []
  · subst h
    refine ⟨le_refl 0, ?_, le_refl 0, ?_⟩
    · show (0 : ℤ) ≤ (P.length : ℤ)
      exact Int.natCast_nonneg _
    · rfl
  · rw [matchType_ne R P h]
    exact ⟨Int.natCast_nonneg _, fp_accum_nonneg P R, Int.natCast_nonneg _,
      tp_add_fn P R⟩

/-- C5: each recording's per-type score is `-fp - 5*fn`, and the corpus
totals `Score1` (SPB) and `Score2` (PVC) returned in the compact result are
the sums of these per-recording scores over all recordings (when the four
outer lists have equal length, the zipped recording list covers them all). -/
theorem corpus_scores_are_sums (a b c d : List (List ℤ))
    (hb : b.length = a.length) (hc : c.length = a.length)
    (hd : d.length = a.length) :
    compute_metrics a b c d 0 =
      .ok (.compact (scoreSum1 (zip4 a b c d)) (scoreSum2 (zip4 a b c d))) ∧
    (zip4 a b c d).length = a.length ∧
    ∀ x : ℤ × ℤ × ℤ, beat_score x = -x.2.1 - 5 * x.2.2 := by
  refine ⟨?_, ?_, ?_⟩
  · simp only [compute_metrics, recordLoop_eq]
    norm_num
  · rw [zip4_length]
    omega
  · intro x
    rw [beat_score]
    ring

/-- Witness for C5 on a two-recording corpus: first recording matched
(score 0), second missed (score −5), so `Score1 = -5`. -/
theorem corpus_scores_are_sums_witness :
    compute_metrics [[100], [200]] [[], []] [[105], []] [[], []] 0 =
      .ok (.compact (scoreSum1 (zip4 [[100], [200]] [[], []] [[105], []] [[], []]))
        (scoreSum2 (zip4 [[100], [200]] [[], []] [[105], []] [[], []]))) ∧
    scoreSum1 (zip4 [[100], [200]] [[], []] [[105], []] [[], []]) = -5 :=
  ⟨(corpus_scores_are_sums [[100], [200]] [[], []] [[105], []] [[], []]
      rfl rfl rfl).1, by decide⟩

/-- C6 counterexample: a call whose four outer lists have mismatched lengths
(1, 0, 0, 0) does not signal any error: it returns the normal compact result
`(0, 0)` (the zip silently truncates to zero recordings). -/
theorem mismatched_lengths_no_error_cex :
    compute_metrics [[0]] [] [] [] 0 = .ok (.compact 0 0) ∧
    ∀ e : String, compute_metrics [[0]] [] [] [] 0 ≠ .error e := by
  refine ⟨rfl, ?_⟩
  intro e hcontra
  rw [show compute_metrics [[0]] [] [] [] 0 = .ok (.compact 0 0) from rfl] at hcontra
  exact Except.noConfusion hcontra

/-- C6 amended: `compute_metrics` performs no length validation at all:
the four outer lists are zipped, truncating to the shortest length, and a
normal (complete, not partial) result is always returned for `verbose = 0`. -/
theorem zip_truncation_no_validation (a b c d : List (List ℤ)) :
    (zip4 a b c d).length = min (min a.length b.length) (min c.length d.length) ∧
    ∃ r : MetricsResult, compute_metrics a b c d 0 = .ok r :=
  ⟨zip4_length a b c d, ⟨_, rfl⟩⟩

/-- C7 counterexample: the matcher does not use a caller-chosen sampling
rate. With caller `fs = 1000` the specified window is `0.15 * 1000 = 150`,
so `R = [1000]`, `P = [1100]` (distance 100) should match; the source
matcher (threshold hardcoded to 60) yields `(0, 0, 1)` instead. -/
theorem caller_fs_cex :
    matchType_fs 1000 [1000] [1100] = (1, 0, 0) ∧
    matchType [1000] [1100] = (0, 0, 1) ∧
    matchType [1000] [1100] ≠ matchType_fs 1000 [1000] [1100] := by
  have h1 : matchType_fs 1000 [1000] [1100] = (1, 0, 0) := by
    norm_num [matchType_fs, List.filter]
  have h2 : matchType [1000] [1100] = (0, 0, 1) := by decide
  refine ⟨h1, h2, ?_⟩
  rw [h1, h2]
  intro hcontra
  simp at hcontra

/-- C7 amended: the sampling rate is hardcoded to `fs = 400` inside
`compute_metrics` (it is not a parameter), the tolerance window is
`bias_thr = 0.15 * 400 = 60`, and the matcher coincides with the
spec-parametric matcher exactly at `fs = 400`: two indices are matched
exactly when their absolute difference is at most 60. -/
theorem bias_thr_hardcoded (R P : List ℤ) (r : ℤ) :
    fs = 400 ∧
    (bias_thr : ℚ) = 15 / 100 * (fs : ℚ) ∧
    matchType R P = matchType_fs 400 R P ∧
    pos_cand P r = (P.filter (fun (p : ℤ) => |p - r| ≤ 60)).length := by
  refine ⟨rfl, ?_, (matchType_fs_400 R P).symm, rfl⟩
  rw [bias_thr, fs]
  norm_num

/-- C8 counterexample: the claim fails for calls with mismatched outer
lengths.  Two calls with identical SPB inputs (`[[100]]` references,
`[[]]` predictions) but a PVC reference list of different outer length give
different SPB totals: the zip truncates the second call to zero recordings,
so `Score1` changes from −5 to 0. -/
theorem type_dependence_cex :
    compute_metrics [[100]] [[]] [[]] [[]] 0 = .ok (.compact (-5) 0) ∧
    compute_metrics [[100]] [] [[]] [[]] 0 = .ok (.compact 0 0) ∧
    compute_metrics [[100]] [[]] [[]] [[]] 0 ≠ compute_metrics [[100]] [] [[]] [[]] 0 := by
  refine ⟨rfl, rfl, ?_⟩
  intro hcontra
  rw [show compute_metrics [[100]] [[]] [[]] [[]] 0 = .ok (.compact (-5) 0) from rfl,
    show compute_metrics [[100]] [] [[]] [[]] 0 = .ok (.compact 0 0) from rfl] at hcontra
  simp at hcontra

/-- C8 amended: provided the four outer lists of each call have equal
lengths (the scorer's input contract), the SPB per-recording counts and the
SPB score total are unaffected by arbitrary changes to the PVC inputs, and
symmetrically for PVC under arbitrary SPB changes; the compact result
returns exactly these totals. -/
theorem type_independence_equal_lengths (n : ℕ) (a b c d b' d' a' c' : List (List ℤ))
    (ha : a.length = n) (hb : b.length = n) (hc : c.length = n)
    (hd : d.length = n) (hb' : b'.length = n) (hd' : d'.length = n)
    (ha' : a'.length = n) (hc' : c'.length = n) :
    ((zip4 a b c d).map sCounts = (zip4 a b' c d').map sCounts ∧
      (recordLoop (zip4 a b c d)).1 = (recordLoop (zip4 a b' c d')).1) ∧
    ((zip4 a b c d).map vCounts = (zip4 a' b c' d).map vCounts ∧
      (recordLoop (zip4 a b c d)).2.1 = (recordLoop (zip4 a' b c' d)).2.1) ∧
    compute_metrics a b c d 0 =
      .ok (.compact (recordLoop (zip4 a b c d)).1 (recordLoop (zip4 a b c d)).2.1) := by
  have hs1 := zip4_map_sCounts a b c d (by omega) (by omega) (by omega)
  have hs2 := zip4_map_sCounts a b' c d' (by omega) (by omega) (by omega)
  have hv1 := zip4_map_vCounts b a c d (by omega) (by omega) (by omega)
  have hv2 := zip4_map_vCounts b a' c' d (by omega) (by omega) (by omega)
  have p1 : ∀ recs : List Rec4, (recordLoop recs).1 = scoreSum1 recs := by
    intro recs
    rw [recordLoop_eq]
  have p2 : ∀ recs : List Rec4, (recordLoop recs).2.1 = scoreSum2 recs := by
    intro recs
    rw [recordLoop_eq]
  refine ⟨⟨hs1.trans hs2.symm, ?_⟩, ⟨hv1.trans hv2.symm, ?_⟩, ?_⟩
  · rw [p1, p1, scoreSum1_eq_map, scoreSum1_eq_map, hs1, hs2]
  · rw [p2, p2, scoreSum2_eq_map, scoreSum2_eq_map, hv1, hv2]
  · simp only [compute_metrics]
    norm_num

/-- Witness for C8 (amended) on one-recording corpora: changing the PVC
inputs from empty annotation lists to `[[7]]`/`[[9]]` leaves the SPB
per-recording counts and the SPB total unchanged. -/
theorem type_independence_equal_lengths_witness :
    (zip4 [[100]] [[]] [[105]] [[]]).map sCounts =
      (zip4 [[100]] [[7]] [[105]] [[9]]).map sCounts ∧
    (recordLoop (zip4 [[100]] [[]] [[105]] [[]])).1 =
      (recordLoop (zip4 [[100]] [[7]] [[105]] [[9]])).1 :=
  (type_independence_equal_lengths 1 [[100]] [[]] [[105]] [[]] [[7]] [[9]]
    [[7]] [[105]] rfl rfl rfl rfl rfl rfl rfl rfl).1

/-- C9: on a corpus with at least one processed recording, `verbose ≥ 1`
returns the detailed result whose `total_loss` is `-(Score1 + Score2)`,
whose `class_loss` entries are the negated per-type totals, and whose
`true_positive`/`false_positive`/`false_negative` entries are the counts of
the last-processed recording only; `verbose = 0` returns the compact pair
`(Score1, Score2)`. -/
theorem verbose_result_shapes (a b c d : List (List ℤ)) (v : ℕ)
    (h : zip4 a b c d ≠ []) :
    (1 ≤ v → compute_metrics a b c d v = .ok (.detailed
        (-(scoreSum1 (zip4 a b c d) + scoreSum2 (zip4 a b c d)))
        (-scoreSum1 (zip4 a b c d)) (-scoreSum2 (zip4 a b c d))
        (sCounts ((zip4 a b c d).getLastD ([], [], [], []))).1
        (vCounts ((zip4 a b c d).getLastD ([], [], [], []))).1
        (sCounts ((zip4 a b c d).getLastD ([], [], [], []))).2.1
        (vCounts ((zip4 a b c d).getLastD ([], [], [], []))).2.1
        (sCounts ((zip4 a b c d).getLastD ([], [], [], []))).2.2
        (vCounts ((zip4 a b c d).getLastD ([], [], [], []))).2.2)) ∧
    (v = 0 → compute_metrics a b c d v =
      .ok (.compact (scoreSum1 (zip4 a b c d)) (scoreSum2 (zip4 a b c d)))) := by
  obtain ⟨rec0, recs0, hrecs⟩ : ∃ rec0 recs0, zip4 a b c d = rec0 :: recs0 := by
    cases hz : zip4 a b c d with
    | nil => exact absurd hz h
    | cons r rs => exact ⟨r, rs, rfl⟩
  constructor
  · intro hv
    simp only [compute_metrics, recordLoop_eq, hrecs]
    rw [if_pos hv]
  · intro hv0
    subst hv0
    simp only [compute_metrics, recordLoop_eq]
    norm_num

/-- Witness for C9 on a one-recording corpus (`s_ref = [100]`, all other
sequences empty): `verbose = 1` yields the detailed result with
`total_loss = 5`, `class_loss = (5, 0)` and last-recording counts
`fn_S = 1`, everything else 0. -/
theorem verbose_result_shapes_witness :
    compute_metrics [[100]] [[]] [[]] [[]] 1 =
      .ok (.detailed 5 5 0 0 0 0 0 1 0) := by
  have h := (verbose_result_shapes [[100]] [[]] [[]] [[]] 1 (by decide)).1
    (by omega)
  rw [h]
  rfl

/-- C10: with all four input lists empty (zero recordings), `verbose = 0`
returns the compact result `(0, 0)`, while any `verbose ≥ 1` fails with the
unbound-variable `NameError`: the loop-local count variables referenced by
the detailed result are never assigned. -/
theorem empty_corpus_behavior (v : ℕ) :
    compute_metrics [] [] [] [] 0 = .ok (.compact 0 0) ∧
    (1 ≤ v → compute_metrics [] [] [] [] v = .error "NameError") := by
  refine ⟨rfl, ?_⟩
  intro hv
  simp only [compute_metrics, recordLoop_eq, zip4_nil]
  rw [if_pos hv]

/-- Witness for C10 at `verbose = 1`. -/
theorem empty_corpus_behavior_witness :
    compute_metrics [] [] [] [] 1 = .error "NameError" :=
  (empty_corpus_behavior 1).2 (by omega)

end CPSC2020
